import Mathlib

/-!
Verification of the langkit Anki addon's binary manager and process manager
(`binary_manager.py`, `process_manager.py`) against its natural-language
specification.  The Python source is shallowly embedded: pure helpers become
Lean functions, the on-disk state touched by `update_binary` and the mutable
state of `ProcessManager` become explicit state records, and fallible steps
are made explicit with `Option`/`Except`.  Network and hashing effects are
passed in as explicit oracles so that every definition stays executable.
-/

namespace Langkit

/-! ## JSON values

Python-level JSON values (the results of `json.load(s)`) and Python
truthiness, used by `check_for_updates`, `_wait_for_ports` and
`get_frontend_url`. -/

/-- A JSON value as produced by `json.load`: null, bool, integer, string,
object (association list, first binding wins on lookup, mirroring unique-key
Python dicts) or array.  Non-integer numbers never occur in the data these
components exchange, so numbers are modelled as integers. -/
inductive JVal where
  | null : JVal
  | bool : Bool → JVal
  | num : Int → JVal
  | str : String → JVal
  | obj : List (String × JVal) → JVal
  | arr : List JVal → JVal

/-- Python truthiness of a JSON value (`bool(v)`): `None`, `False`, `0`,
`""`, `{}` and `[]` are falsy, everything else truthy. -/
def pyTruthy : JVal → Bool
  | .null => false
  | .bool b => b
  | .num n => n != 0
  | .str s => s != ""
  | .obj o => !o.isEmpty
  | .arr l => !l.isEmpty

/-- Python truthiness of an optional value, where `none` stands for Python
`None` (falsy). -/
def pyTruthyOpt : Option JVal → Bool
  | none => false
  | some v => pyTruthy v

/-- `d.get(k)` on a Python dict: the value bound to the first occurrence of
the key, or `none` when the key is absent. -/
def objGet (o : List (String × JVal)) (k : String) : Option JVal :=
  match o.find? (fun p => p.1 == k) with
  | some p => some p.2
  | none => none

/-- `k in d` on a Python dict: key membership. -/
def objHasKey (o : List (String × JVal)) (k : String) : Bool :=
  o.any (fun p => p.1 == k)

/-! ## Version parsing (`parse_version`, binary_manager.py lines 27-48)

`parse_version` strips a leading `v`, splits on `.`, keeps the digit
characters of each segment and parses them as a decimal integer; a segment
containing no digit characters is skipped.  The model works over `List Char`
so that every step is structurally recursive and kernel-reducible.  Two
remarks on fidelity: the model uses ASCII digits (Python's `str.isdigit`
additionally accepts Unicode digit characters, on some of which `int()`
then raises, reaching the otherwise-dead `except` branch that appends `0`;
no version tag exercised by the claims contains such characters), and the
`except (ValueError, TypeError)` handler is unreachable for ASCII input
since `int` cannot fail on a nonempty all-digit ASCII string. -/

/-- Split a character list on the dot separator, mirroring
`str.split(".")`: `"" → [""]`, separators at the ends produce empty
segments. -/
def splitDot : List Char → List (List Char)
  | [] => [[]]
  | c :: cs =>
    if c = Char.ofNat 46 then
      [] :: splitDot cs
    else
      match splitDot cs with
      | [] => [[c]]
      | h :: t => (c :: h) :: t

/-- Decimal value of a list of digit characters, as computed by `int()` on
the corresponding string. -/
def digitsToNat (ds : List Char) : Nat :=
  ds.foldl (fun n c => 10 * n + (c.toNat - 48)) 0

/-- `parse_version` (binary_manager.py lines 27-48): strip a leading
lowercase `v`, split on `.`, keep only digit characters per segment,
parse each nonempty digit run as an integer, skip digitless segments. -/
def parse_version (vs : String) : List Nat :=
  let cs : List Char :=
    match vs.toList with
    | c :: rest => if c = Char.ofNat 118 then rest else c :: rest
    | [] => []
  (splitDot cs).foldr
    (fun part acc =>
      let ds := part.filter Char.isDigit
      if ds.isEmpty then acc else digitsToNat ds :: acc)
    []

/-- Python tuple comparison `a > b` on integer tuples: lexicographic, and a
proper prefix is strictly smaller than any extension of it.  This is the
comparison `check_for_updates` performs at binary_manager.py line 293. -/
def pyTupleGt : List Nat → List Nat → Bool
  | [], [] => false
  | [], _ :: _ => false
  | _ :: _, [] => true
  | a :: as_, b :: bs => if b < a then true else if a < b then false else pyTupleGt as_ bs

/-- Zero-pad a tuple on the right to length `m`. -/
def padTo (m : Nat) (l : List Nat) : List Nat :=
  l ++ List.replicate (m - l.length) 0

/-- The comparison the specification describes: zero-pad both parsed tuples
to a common length (missing trailing segments count as 0), then compare. -/
def paddedGt (a b : List Nat) : Bool :=
  let m := max a.length b.length
  pyTupleGt (padTo m a) (padTo m b)

theorem padTo_self (l : List Nat) : padTo l.length l = l := by
  simp [padTo]

theorem paddedGt_of_length_eq (a b : List Nat) (h : a.length = b.length) :
    paddedGt a b = pyTupleGt a b := by
  unfold paddedGt
  simp only [h, max_self]
  rw [show padTo b.length a = a from h ▸ padTo_self a, padTo_self]

example : parse_version "v1.2.3" = [1, 2, 3] := by decide
example : parse_version "v1.10-hotfix" = [1, 10] := by decide
example : parse_version "v2" = [2] := by decide
example : parse_version "" = [] := by decide
example : pyTupleGt (parse_version "v1.10") (parse_version "v1.9") = true := by decide
example : pyTupleGt (parse_version "v2.0.0") (parse_version "v2") = true := by decide
example : paddedGt (parse_version "v2.0.0") (parse_version "v2") = false := by decide

/-- C2 counterexample: the claim asserts that the comparison used by
`check_for_updates` treats missing trailing segments as 0, so that
`"v2"` and `"v2.0.0"` compare equal.  On the code, Python tuple comparison
makes the shorter tuple strictly smaller: `parse_version("v2.0.0") >
parse_version("v2")` is true, while the zero-padded comparison the claim
describes reports the two as equal (neither strictly greater). -/
theorem version_compare_padding_counterexample :
    pyTupleGt (parse_version "v2.0.0") (parse_version "v2") = true ∧
    paddedGt (parse_version "v2.0.0") (parse_version "v2") = false ∧
    paddedGt (parse_version "v2") (parse_version "v2.0.0") = false := by
  decide

/-- C2 amended: the comparison used by `check_for_updates` is Python
lexicographic tuple comparison, under which a proper prefix is strictly
smaller than its extension.  It agrees with the zero-padded integer-tuple
comparison whenever the two parsed tuples have the same number of segments;
in particular `"v1.9"` orders strictly below `"v1.10"`.  But `"v2"` orders
strictly below `"v2.0.0"` rather than equal to it. -/
theorem version_compare_amended :
    (∀ a b : String,
      (parse_version a).length = (parse_version b).length →
        pyTupleGt (parse_version a) (parse_version b) =
          paddedGt (parse_version a) (parse_version b)) ∧
    pyTupleGt (parse_version "v1.10") (parse_version "v1.9") = true ∧
    pyTupleGt (parse_version "v1.9") (parse_version "v1.10") = false ∧
    pyTupleGt (parse_version "v2.0.0") (parse_version "v2") = true := by
  refine ⟨fun a b h => ?_, by decide, by decide, by decide⟩
  rw [paddedGt_of_length_eq _ _ h]

/-- Witness for the amended C2 theorem: `"v1.9"` and `"v1.10"` parse to
tuples of equal length, and on them the code's comparison agrees with the
zero-padded comparison. -/
theorem version_compare_amended_witness :
    (parse_version "v1.9").length = (parse_version "v1.10").length ∧
    pyTupleGt (parse_version "v1.9") (parse_version "v1.10") =
      paddedGt (parse_version "v1.9") (parse_version "v1.10") :=
  ⟨by decide, version_compare_amended.1 "v1.9" "v1.10" (by decide)⟩

/-! ## Platform resolution and local binary lookup (binary_manager.py)

The host platform is `platform.system()` (modelled by `Sys`, with an
`otherOS` case for any system outside the three handled ones) together with
the raw `platform.machine()` string.  The filesystem seen by the
`BinaryManager` is modelled as an existence predicate over path strings;
names inside the binaries directory are prefixed by `binDir`.  All
definitions are pure: `check_binary_exists` performs no network access in
the source and its model takes no network oracle. -/

/-- `platform.system()` outcomes distinguished by the source. -/
inductive Sys where
  | windows : Sys
  | darwin : Sys
  | linux : Sys
  | otherOS : Sys
deriving DecidableEq

/-- Machine-architecture normalization from `get_platform_info`
(binary_manager.py lines 101-112). -/
def normalizeMachine (sys : Sys) (m : String) : String :=
  if m = "x86_64" ∨ m = "AMD64" ∨ m = "amd64" then
    if sys = Sys.windows then "AMD64" else "x86_64"
  else if m = "aarch64" ∨ m = "arm64" then "arm64"
  else m

/-- `PLATFORM_MAPPING` lookup via `get_binary_name` (lines 53-59 and
114-117): remote archive name for the normalized platform key, `none` when
the platform is unsupported. -/
def getBinaryName (sys : Sys) (machine : String) : Option String :=
  let m := normalizeMachine sys machine
  match sys with
  | .windows => if m = "AMD64" then some "langkit-app-windows.zip" else none
  | .darwin =>
    if m = "x86_64" ∨ m = "arm64" then some "langkit-app-macos.zip" else none
  | .linux => if m = "x86_64" then some "langkit-app-linux.tar.xz" else none
  | .otherOS => none

/-- The two Linux webkit-linkage candidate binaries, in the preference
order of `_detect_working_binary_linux` (line 129). -/
def variantNames : List String := ["langkit", "langkit-webkit2_41"]

/-- `_detect_working_binary_linux` (lines 119-150): `none` off Linux;
otherwise the session cache if set, else the first candidate that both
exists on disk and runs successfully under the two-second `--version`
probe (`probeRun` is the outcome oracle of that subprocess invocation). -/
def detectWorkingLinux (sys : Sys) (cache : Option String)
    (probeRun : String → Bool) (present : String → Bool) : Option String :=
  if sys ≠ Sys.linux then none
  else
    match cache with
    | some c => some c
    | none => variantNames.find? (fun v => present v && probeRun v)

/-- Relative path of a name inside the binaries directory
(`addon_path/user_files/binaries`, line 64). -/
def binDir (n : String) : String := "user_files/binaries/" ++ n

/-- `get_local_binary_name` called with no argument (lines 152-168):
`none` for unsupported platforms, a fixed bundle or executable name on
macOS and Windows, and the probe result on Linux. -/
def getLocalBinaryName (sys : Sys) (machine : String) (cache : Option String)
    (probeRun : String → Bool) (present : String → Bool) : Option String :=
  match getBinaryName sys machine with
  | none => none
  | some _ =>
    match sys with
    | .darwin => some "langkit.app"
    | .windows => some "langkit-app.exe"
    | _ => detectWorkingLinux sys cache probeRun present

/-- `check_binary_exists` (lines 170-190).  `binPathCfg` is
`config.get("binary_path")` (`none` when absent; the empty string is falsy
and skips the override, any other configured string is returned as
`path.exists()` with no fallback).  On Linux the code only tests existence
of the two candidate files and never consults the variant probe; on other
platforms it tests existence of the resolved local name. -/
def checkBinaryExists (sys : Sys) (machine : String)
    (binPathCfg : Option String) (cache : Option String)
    (probeRun : String → Bool) (existsAt : String → Bool) : Bool :=
  let platformCheck : Bool :=
    if sys = Sys.linux then
      variantNames.any (fun v => existsAt (binDir v))
    else
      match getLocalBinaryName sys machine cache probeRun
          (fun v => existsAt (binDir v)) with
      | none => false
      | some n => existsAt (binDir n)
  match binPathCfg with
  | some p => if p = "" then platformCheck else existsAt p
  | none => platformCheck

example :
    checkBinaryExists Sys.darwin "arm64" none none (fun _ => false)
      (fun p => p = binDir "langkit.app") = true := by decide
example :
    checkBinaryExists Sys.otherOS "mips" none none (fun _ => true)
      (fun _ => false) = false := by decide

/-- C4 counterexample: on Linux with no configured override, the candidate
file `langkit` present on disk, and a variant probe that fails for every
candidate (so `_detect_working_binary_linux` finds no working variant),
`check_binary_exists` still returns `true` — the claim requires `false`
when no candidate passes the probe.  `check_binary_exists` only tests file
existence and never consults the probe. -/
theorem check_binary_exists_counterexample :
    checkBinaryExists Sys.linux "x86_64" none none (fun _ => false)
      (fun p => p = binDir "langkit") = true ∧
    detectWorkingLinux Sys.linux none (fun _ => false)
      (fun v => (fun p => p = binDir "langkit") (binDir v)) = none ∧
    (fun p => p = binDir "langkit") (binDir "langkit") = true := by
  refine ⟨by decide, by decide, by decide⟩

/-- C4 amended: `check_binary_exists` performs no network access (its model
is a pure function of the configuration and the on-disk state) and returns
true iff: when a nonempty override path is configured, that path exists
(with no fallback to the platform artifact when it does not); otherwise, on
Linux, at least one of the two candidate variant files exists — the variant
probe is not consulted, that is done by `get_binary_path_if_exists` — and
on the remaining platforms the resolved local artifact name exists. -/
theorem check_binary_exists_amended (sys : Sys) (machine : String)
    (binPathCfg : Option String) (cache : Option String)
    (probeRun : String → Bool) (existsAt : String → Bool) :
    checkBinaryExists sys machine binPathCfg cache probeRun existsAt = true ↔
      ((∃ p, binPathCfg = some p ∧ p ≠ "" ∧ existsAt p = true) ∨
        ((binPathCfg = none ∨ binPathCfg = some "") ∧
          ((sys = Sys.linux ∧
              (existsAt (binDir "langkit") = true ∨
                existsAt (binDir "langkit-webkit2_41") = true)) ∨
            (sys ≠ Sys.linux ∧
              ∃ n, getLocalBinaryName sys machine cache probeRun
                    (fun v => existsAt (binDir v)) = some n ∧
                existsAt (binDir n) = true)))) := by
  unfold checkBinaryExists
  rcases binPathCfg with _ | p
  · by_cases hl : sys = Sys.linux
    · subst hl
      simp [variantNames]
    · rcases h : getLocalBinaryName sys machine cache probeRun
          (fun v => existsAt (binDir v)) with _ | n
      · simp [hl, h]
      · simp [hl, h]
  · by_cases hp : p = ""
    · subst hp
      by_cases hl : sys = Sys.linux
      · subst hl
        simp [variantNames]
      · rcases h : getLocalBinaryName sys machine cache probeRun
            (fun v => existsAt (binDir v)) with _ | n
        · simp [hl, h]
        · simp [hl, h]
    · simp [hp]

/-! ## Process manager state (process_manager.py)

`ProcessManager`'s mutable attributes become a state record.  The
subprocess handle is reduced to its observable: `poll()`'s result
(`retcode = none` while the process is alive).  The temporary-file side of
the state (the RuntimeConfigFile and the stderr capture file) lives in an
explicit map from path strings to file contents.  `stderr_attr` models the
`stderr_file` attribute, which is created by `start` (`hasattr` is false
before the first start, hence the extra `Option` layer). -/

/-- Observable state of a `subprocess.Popen` handle: `poll()`'s value.
`none` means the process is still running. -/
structure Proc where
  retcode : Option Int
deriving DecidableEq

/-- Overwrite one file's contents in a path-to-contents map. -/
def fsSet {α : Type} (k : String) (v : α) (f : String → Option α) :
    String → Option α :=
  fun n => if n = k then some v else f n

/-- Delete one file from a path-to-contents map (`Path.unlink`). -/
def fsDel {α : Type} (k : String) (f : String → Option α) :
    String → Option α :=
  fun n => if n = k then none else f n

/-- The mutable state of a `ProcessManager` instance together with the
temporary files it owns on disk. -/
@[ext]
structure PMState where
  process : Option Proc
  server_config : Option JVal
  config_file : Option String
  stderr_attr : Option (Option String)
  shutdown_event : Bool
  last_stderr : String
  fs : String → Option String

/-- `is_running` (lines 167-169): a handle exists and `poll()` returned
`None`. -/
def isRunning (s : PMState) : Bool :=
  match s.process with
  | some p => p.retcode.isNone
  | none => false

/-- `get_server_info` (lines 171-173). -/
def getServerInfo (s : PMState) : Option JVal :=
  s.server_config

/-- Python `str()` of the values that can appear as a port entry.  The
reprs of containers are irrelevant to every claim and are elided. -/
def pyStrOfJVal : JVal → String
  | .num n => toString n
  | .str s => s
  | .bool b => if b then "True" else "False"
  | .null => "None"
  | .obj _ => ""
  | .arr _ => ""

/-- `get_frontend_url` (lines 175-187): requires a truthy stored config
containing the key `langkit_server`; in single-port mode the port is read
only from `port` (no fallback), otherwise from `frontend_port`; a falsy or
missing port yields `None`.  The readiness poll only ever stores parsed
JSON objects; on other shapes the source's dict-style membership or
subscript raises, modelled as `Except.error`. -/
def getFrontendUrl (sc : Option JVal) : Except Unit (Option String) :=
  match sc with
  | none => Except.ok none
  | some v =>
    if pyTruthy v then
      match v with
      | .obj o =>
        if objHasKey o "langkit_server" then
          match (objGet o "langkit_server").getD JVal.null with
          | .obj si =>
            let port : Option JVal :=
              if pyTruthyOpt (objGet si "single_port") then objGet si "port"
              else objGet si "frontend_port"
            match port with
            | some pv =>
              if pyTruthy pv then
                Except.ok (some ("http://localhost:" ++ pyStrOfJVal pv))
              else Except.ok none
            | none => Except.ok none
          | _ => Except.error ()
        else Except.ok none
      | _ => Except.error ()
    else Except.ok none

/-- The newline character. -/
def lfChar : Char := Char.ofNat 10

/-- Split a character list into newline-separated groups (the final group
is the tail after the last newline, possibly empty). -/
def splitNl : List Char → List (List Char)
  | [] => [[]]
  | c :: cs =>
    if c = lfChar then [] :: splitNl cs
    else
      match splitNl cs with
      | [] => [[c]]
      | h :: t => (c :: h) :: t

/-- Python `f.readlines()` on a file with the given contents: each line
keeps its trailing newline; a nonempty tail after the last newline forms a
final line without one. -/
def pyReadlines (s : String) : List String :=
  let gs := splitNl s.toList
  ((gs.take (gs.length - 1)).map (fun g => String.mk (g ++ [lfChar]))) ++
    (match gs.getLast? with
     | some [] => []
     | some g => [String.mk g]
     | none => [])

/-- `_read_stderr` (lines 292-305): the last 50 lines of the stderr capture
file when the attribute is set to an existing path, else the cached
`last_stderr` (`or ""` is the identity on strings). -/
def readStderr (s : PMState) : String :=
  match s.stderr_attr with
  | some (some p) =>
    match s.fs p with
    | some content =>
      let ls := pyReadlines content
      String.join (List.drop (ls.length - 50) ls)
    | none => s.last_stderr
  | _ => s.last_stderr

/-- The file deletions performed by `stop` (lines 145-157): unlink the
RuntimeConfigFile and the stderr capture file.  The source guards each
unlink with an existence test and a try/except; deleting an absent key is
the identity on the map, so the guards are observationally no-ops here. -/
def stopFs (cf : Option String) (sa : Option (Option String))
    (fs : String → Option String) : String → Option String :=
  let f1 :=
    match cf with
    | some p => fsDel p fs
    | none => fs
  match sa with
  | some (some p) => fsDel p f1
  | _ => f1

/-- `stop` (lines 120-159): set the shutdown flag, terminate the process if
a handle exists (graceful signal, bounded wait, forced kill on timeout —
all reduced to their observable: the handle is cleared), delete the two
temporary files, clear the captured endpoints.  Every step is wrapped in
try/except in the source, so `stop` never raises; the model is total. -/
def stop (s : PMState) : PMState :=
  { s with
    shutdown_event := true
    process := none
    fs := stopFs s.config_file s.stderr_attr s.fs
    server_config := none }

/-- One iteration of the monitor loop `_monitor_process` (lines 267-290):
when the shutdown flag is set the loop exits untouched; when the process
handle reports termination and shutdown was not requested, the loop caches
stderr, clears the handle and the captured endpoints; otherwise it sleeps.
The inner shutdown re-check of the source reads the same flag value within
one step. -/
def monitorStep (s : PMState) : PMState :=
  if s.shutdown_event then s
  else
    match s.process with
    | some p =>
      if p.retcode.isSome then
        { s with
          last_stderr := readStderr s
          process := none
          server_config := none }
      else s
    | none => s

theorem stopFs_idem (cf : Option String) (sa : Option (Option String))
    (fs : String → Option String) :
    stopFs cf sa (stopFs cf sa fs) = stopFs cf sa fs := by
  funext n
  rcases cf with _ | p <;> rcases sa with _ | _ | q <;>
    simp only [stopFs, fsDel] <;> split_ifs <;> rfl

/-- The cleanup postcondition of `stop`: both temporary files are gone from
disk (when their paths are tracked) and the captured endpoints are
cleared. -/
def stopClean (s : PMState) : Prop :=
  (match s.config_file with
   | some p => s.fs p = none
   | none => True) ∧
  (match s.stderr_attr with
   | some (some p) => s.fs p = none
   | _ => True) ∧
  s.server_config = none

/-- C7: `stop()` is idempotent — a second immediate `stop()` leaves exactly
the state of the first (and, the model being total like the source whose
risky steps are all wrapped in try/except, raises no error) — and after
every `stop()` the RuntimeConfigFile and stderr capture file are deleted if
present and the captured endpoints are cleared, regardless of how the
process exited. -/
theorem stop_idempotent_and_cleans (s : PMState) :
    stop (stop s) = stop s ∧ stopClean (stop s) := by
  constructor
  · simp [stop, stopFs_idem]
  · refine ⟨?_, ?_, rfl⟩
    · rcases hcf : s.config_file with _ | p
      · simp [stop, hcf]
      · rcases hsa : s.stderr_attr with _ | _ | q
        · simp [stop, stopFs, hcf, hsa, fsDel]
        · simp [stop, stopFs, hcf, hsa, fsDel]
        · by_cases hpq : p = q <;>
            simp [stop, stopFs, hcf, hsa, fsDel, hpq]
    · rcases hsa : s.stderr_attr with _ | _ | q
      · simp [stop, hsa]
      · simp [stop, hsa]
      · rcases hcf : s.config_file with _ | p <;>
          simp [stop, stopFs, hcf, hsa, fsDel]

/-- C6: when the supervised process terminates while the shutdown flag is
unset (an unrequested termination), one monitor-loop iteration clears the
process handle and the captured server configuration, so `is_running()` is
false and `get_server_info()`/`get_frontend_url()` return nothing. -/
theorem monitor_clears_on_crash (s : PMState) (p : Proc) (rc : Int)
    (hsd : s.shutdown_event = false) (hp : s.process = some p)
    (hrc : p.retcode = some rc) :
    isRunning (monitorStep s) = false ∧
    (monitorStep s).process = none ∧
    (monitorStep s).server_config = none ∧
    getServerInfo (monitorStep s) = none ∧
    getFrontendUrl (getServerInfo (monitorStep s)) = Except.ok none := by
  have hm : monitorStep s =
      { s with
        last_stderr := readStderr s
        process := none
        server_config := none } := by
    simp [monitorStep, hsd, hp, hrc]
  rw [hm]
  exact ⟨rfl, rfl, rfl, rfl, rfl⟩

/-- Witness for C6 at a concrete crashed state: process exited with code 1,
shutdown not requested, endpoints previously captured. -/
theorem monitor_clears_on_crash_witness :
    isRunning (monitorStep
      { process := some { retcode := some 1 }
        server_config := some (JVal.obj [("langkit_server", JVal.obj [])])
        config_file := some "cfg.json"
        stderr_attr := some (some "stderr.log")
        shutdown_event := false
        last_stderr := ""
        fs := fun _ => none }) = false ∧
    (monitorStep
      { process := some { retcode := some 1 }
        server_config := some (JVal.obj [("langkit_server", JVal.obj [])])
        config_file := some "cfg.json"
        stderr_attr := some (some "stderr.log")
        shutdown_event := false
        last_stderr := ""
        fs := fun _ => none }).process = none ∧
    (monitorStep
      { process := some { retcode := some 1 }
        server_config := some (JVal.obj [("langkit_server", JVal.obj [])])
        config_file := some "cfg.json"
        stderr_attr := some (some "stderr.log")
        shutdown_event := false
        last_stderr := ""
        fs := fun _ => none }).server_config = none ∧
    getServerInfo (monitorStep
      { process := some { retcode := some 1 }
        server_config := some (JVal.obj [("langkit_server", JVal.obj [])])
        config_file := some "cfg.json"
        stderr_attr := some (some "stderr.log")
        shutdown_event := false
        last_stderr := ""
        fs := fun _ => none }) = none ∧
    getFrontendUrl (getServerInfo (monitorStep
      { process := some { retcode := some 1 }
        server_config := some (JVal.obj [("langkit_server", JVal.obj [])])
        config_file := some "cfg.json"
        stderr_attr := some (some "stderr.log")
        shutdown_event := false
        last_stderr := ""
        fs := fun _ => none })) = Except.ok none :=
  monitor_clears_on_crash _ _ 1 rfl rfl rfl

/-! ## Ordering of the actions inside `stop` (C9)

`stop` is straight-line code; its externally visible actions are listed in
program order.  `sendTerminate` covers both the Windows `terminate()` call
and the Unix `SIGTERM` at lines 127-130; `forceKill` is the escalation
after the five-second grace period; the unlink actions carry their
existence guards, hence the `Bool` parameters. -/

/-- The externally visible actions of one `stop()` call. -/
inductive StopAct where
  | setShutdownFlag : StopAct
  | sendTerminate : StopAct
  | waitProc : StopAct
  | forceKill : StopAct
  | unlinkConfigFile : StopAct
  | unlinkStderrFile : StopAct
  | clearEndpoints : StopAct
deriving DecidableEq

/-- The action trace of `stop` (lines 120-159) in program order:
the shutdown flag is set first (line 122); if a process handle exists the
termination signal is sent and the process awaited, escalating to a kill
when the grace period times out; then the existing temporary files are
unlinked and the endpoints cleared. -/
def stopActs (hasProc graceTimedOut hasCfg hasStderr : Bool) : List StopAct :=
  [StopAct.setShutdownFlag] ++
    (if hasProc then
      [StopAct.sendTerminate, StopAct.waitProc] ++
        (if graceTimedOut then [StopAct.forceKill, StopAct.waitProc] else [])
    else []) ++
    (if hasCfg then [StopAct.unlinkConfigFile] else []) ++
    (if hasStderr then [StopAct.unlinkStderrFile] else []) ++
    [StopAct.clearEndpoints]

/-- C9: in every execution of `stop()` the shutdown flag is set before the
termination signal is sent: position 0 of the trace is always the
flag-setting action, and any occurrence of the termination signal is at a
strictly later position, so the monitor loop can never observe the
resulting exit with the flag still unset. -/
theorem shutdown_flag_before_terminate (hasProc g hasCfg hasStderr : Bool)
    (j : Nat)
    (h : (stopActs hasProc g hasCfg hasStderr)[j]? = some StopAct.sendTerminate) :
    (stopActs hasProc g hasCfg hasStderr)[0]? = some StopAct.setShutdownFlag ∧
      0 < j := by
  constructor
  · simp [stopActs]
  · rcases j with _ | j
    · simp [stopActs] at h
    · omega

/-- Witness for C9: with a live process handle and no grace-period timeout,
the termination signal sits at position 1, after the flag set at
position 0. -/
theorem shutdown_flag_before_terminate_witness :
    (stopActs true false false false)[1]? = some StopAct.sendTerminate ∧
    ((stopActs true false false false)[0]? = some StopAct.setShutdownFlag ∧
      0 < 1) :=
  ⟨rfl, shutdown_flag_before_terminate true false false false 1 rfl⟩

theorem objGet_some_hasKey {o : List (String × JVal)} {k : String} {v : JVal}
    (h : objGet o k = some v) : objHasKey o k = true := by
  unfold objGet at h
  rcases hf : o.find? (fun p => p.1 == k) with _ | p
  · rw [hf] at h
    cases h
  · have hp := List.find?_some hf
    unfold objHasKey
    rw [List.any_eq_true]
    exact ⟨p, List.mem_of_find?_eq_some hf, hp⟩

theorem objGet_some_truthy {o : List (String × JVal)} {k : String} {v : JVal}
    (h : objGet o k = some v) : pyTruthy (JVal.obj o) = true := by
  unfold objGet at h
  rcases hf : o.find? (fun p => p.1 == k) with _ | p
  · rw [hf] at h
    cases h
  · have hmem := List.mem_of_find?_eq_some hf
    have : o ≠ [] := List.ne_nil_of_mem hmem
    simp [pyTruthy, List.isEmpty_iff, this]

/-- C10: when the captured server configuration marks `single_port` truthy
but its `port` entry is absent or falsy, `get_frontend_url()` returns
`None`: the port is read only from `port` in single-port mode, with no
fallback to `frontend_port`, whatever else the object contains. -/
theorem single_port_no_frontend_fallback (o si : List (String × JVal))
    (hsc : objGet o "langkit_server" = some (JVal.obj si))
    (hsp : pyTruthyOpt (objGet si "single_port") = true)
    (hport : pyTruthyOpt (objGet si "port") = false) :
    getFrontendUrl (some (JVal.obj o)) = Except.ok none := by
  have htr := objGet_some_truthy hsc
  have hkey := objGet_some_hasKey hsc
  rcases hp : objGet si "port" with _ | pv
  · simp [getFrontendUrl, htr, hkey, hsc, hsp, hp]
  · have : pyTruthy pv = false := by
      rw [hp] at hport
      exact hport
    simp [getFrontendUrl, htr, hkey, hsc, hsp, hp, this]

/-- Witness for C10: single-port mode flagged, no `port` key, and a present
`frontend_port` that must not be used — the URL is `None`. -/
theorem single_port_no_frontend_fallback_witness :
    getFrontendUrl (some (JVal.obj
      [("langkit_server", JVal.obj
        [("single_port", JVal.bool true),
         ("frontend_port", JVal.num 8080)])])) = Except.ok none :=
  single_port_no_frontend_fallback
    [("langkit_server", JVal.obj
      [("single_port", JVal.bool true), ("frontend_port", JVal.num 8080)])]
    [("single_port", JVal.bool true), ("frontend_port", JVal.num 8080)]
    rfl rfl rfl

/-! ## Readiness polling (`start` / `_wait_for_ports`, C5)

`_wait_for_ports` polls the RuntimeConfigFile at a fixed interval up to
`config_poll_timeout`; the model counts polls (`fuel` is the number of
iterations the deadline allows) and reads each poll's observation — the
liveness of the process and the outcome of opening and parsing the config
file — from a trace.  A `none` observation covers both `FileNotFoundError`
and `json.JSONDecodeError`, the two exceptions the source treats as
"not ready yet".  A parsed value whose `langkit_server` entry is not an
object cannot satisfy the readiness test; shapes on which the source's
membership test would raise abort startup through `start`'s exception
handler, which also stops the process and returns failure, so mapping them
to "not ready" preserves the claimed conclusion. -/

/-- The readiness condition of lines 244-251: the parsed config holds a
`langkit_server` object containing all of `frontend_port`, `api_port` and
`ws_port`. -/
def hasServerKeys (v : JVal) : Bool :=
  match v with
  | .obj o =>
    match objGet o "langkit_server" with
    | some (.obj si) =>
      objHasKey si "frontend_port" && objHasKey si "api_port" &&
        objHasKey si "ws_port"
    | some _ => false
    | none => false
  | _ => false

/-- One poll's observation: process liveness, and the parsed config file if
it could be opened and parsed. -/
structure Obs where
  running : Bool
  fileRead : Option JVal

/-- Whether one observation satisfies the readiness condition. -/
def obsReady (o : Obs) : Bool :=
  match o.fileRead with
  | some cfg => hasServerKeys cfg
  | none => false

/-- `_wait_for_ports` (lines 189-265) over an observation trace: at each
iteration, a dead process aborts the poll with failure (the source then
classifies and surfaces the captured stderr); a ready config ends it with
success, returning the parsed config that becomes `server_config`;
otherwise the loop sleeps and polls again until the deadline. -/
def waitForPorts : Nat → (Nat → Obs) → Nat → Option JVal
  | 0, _, _ => none
  | fuel + 1, obs, i =>
    if (obs i).running then
      match (obs i).fileRead with
      | some cfg =>
        if hasServerKeys cfg then some cfg else waitForPorts fuel obs (i + 1)
      | none => waitForPorts fuel obs (i + 1)
    else none

/-- The tail of `start` (lines 100-113): on readiness success the parsed
config is kept and the stderr capture file is removed; on failure `stop()`
is invoked and `False` returned. -/
def startFinish (s : PMState) (fuel : Nat) (obs : Nat → Obs) :
    Bool × PMState :=
  match waitForPorts fuel obs 0 with
  | some cfg =>
    let s1 := { s with server_config := some cfg }
    let s2 :=
      match s1.stderr_attr with
      | some (some p) =>
        if (s1.fs p).isSome then
          { s1 with fs := fsDel p s1.fs, stderr_attr := some none }
        else s1
      | _ => s1
    (true, s2)
  | none => (false, stop s)

theorem waitForPorts_none (obs : Nat → Obs) :
    ∀ (fuel i : Nat),
      (∀ j, i ≤ j → j < i + fuel → obsReady (obs j) = false) →
        waitForPorts fuel obs i = none := by
  intro fuel
  induction fuel with
  | zero => intro i _; rfl
  | succ n ih =>
    intro i h
    unfold waitForPorts
    by_cases hr : (obs i).running
    · have hi : obsReady (obs i) = false := h i (le_refl i) (by omega)
      rcases hf : (obs i).fileRead with _ | cfg
      · simp only [hr, if_true, hf]
        exact ih (i + 1) (fun j h1 h2 => h j (by omega) (by omega))
      · have hk : hasServerKeys cfg = false := by
          unfold obsReady at hi
          rw [hf] at hi
          exact hi
        simp only [hr, if_true, hf, hk, if_false]
        exact ih (i + 1) (fun j h1 h2 => h j (by omega) (by omega))
    · simp [hr]

/-- C5: if no poll within the deadline observes the RuntimeConfigFile
containing the recognized nested server object with all required endpoint
keys, then the tail of `start()` returns failure and the state it leaves
is exactly `stop`'s: the spawned process has been terminated rather than
left running as an orphan. -/
theorem start_timeout_fails_and_stops (s : PMState) (fuel : Nat)
    (obs : Nat → Obs) (h : ∀ j, j < fuel → obsReady (obs j) = false) :
    startFinish s fuel obs = (false, stop s) ∧
    (stop s).process = none ∧ isRunning (stop s) = false := by
  have hw : waitForPorts fuel obs 0 = none :=
    waitForPorts_none obs fuel 0 (fun j _ h2 => h j (by omega))
  refine ⟨?_, rfl, rfl⟩
  simp [startFinish, hw]

/-- Witness for C5: a two-poll run whose config file never parses, over a
live process; `start` fails and the final state is the stopped one. -/
theorem start_timeout_fails_and_stops_witness :
    startFinish
      { process := some { retcode := none }
        server_config := none
        config_file := some "cfg.json"
        stderr_attr := some (some "stderr.log")
        shutdown_event := false
        last_stderr := ""
        fs := fun _ => none } 2 (fun _ => { running := true, fileRead := none }) =
      (false, stop
        { process := some { retcode := none }
          server_config := none
          config_file := some "cfg.json"
          stderr_attr := some (some "stderr.log")
          shutdown_event := false
          last_stderr := ""
          fs := fun _ => none }) ∧
    (stop
      { process := some { retcode := none }
        server_config := none
        config_file := some "cfg.json"
        stderr_attr := some (some "stderr.log")
        shutdown_event := false
        last_stderr := ""
        fs := fun _ => none }).process = none ∧
    isRunning (stop
      { process := some { retcode := none }
        server_config := none
        config_file := some "cfg.json"
        stderr_attr := some (some "stderr.log")
        shutdown_event := false
        last_stderr := ""
        fs := fun _ => none }) = false :=
  start_timeout_fails_and_stops _ 2 _ (fun _ _ => rfl)

/-! ## Update checking (`check_for_updates`, binary_manager.py lines 279-299)

`_fetch_release_info` already catches all of its own exceptions and returns
`None` on any failure, so its outcome is an `Option JVal` (an arbitrary
parsed JSON document on success).  The body of `check_for_updates` may
itself raise — `.get` on a non-dict document, `parse_version` on a
non-string tag or persisted version — and the enclosing
`except Exception` turns every such error into `None`; the body is
therefore modelled in `Except`, with the catch applied on top.
`lastKnown` is `config.get("last_known_version")`. -/

/-- The try-block of `check_for_updates`: `None` for a falsy release
document; otherwise read `tag_name` (default `"0.0.0"`), return it
unconditionally when the persisted version is falsy, else return it
exactly when the parsed tuples compare strictly newer.  Dict operations on
non-dict documents and `parse_version` on non-strings raise. -/
def cfuBody (fetched lastKnown : Option JVal) : Except Unit (Option JVal) :=
  match fetched with
  | none => Except.ok none
  | some ri =>
    if pyTruthy ri then
      match ri with
      | .obj o =>
        let latest := (objGet o "tag_name").getD (JVal.str "0.0.0")
        if pyTruthyOpt lastKnown then
          match latest, lastKnown with
          | .str ls, some (.str cs) =>
            if pyTupleGt (parse_version ls) (parse_version cs) then
              Except.ok (some (JVal.str ls))
            else Except.ok none
          | _, _ => Except.error ()
        else Except.ok (some latest)
      | _ => Except.error ()
    else Except.ok none

/-- `check_for_updates` (lines 279-299): the try-block with every raised
exception caught and mapped to `None`. -/
def checkForUpdates (fetched lastKnown : Option JVal) : Option JVal :=
  match cfuBody fetched lastKnown with
  | .ok r => r
  | .error _ => none

example :
    checkForUpdates (some (JVal.obj [("tag_name", JVal.str "v1.3")]))
      (some (JVal.str "v1.2")) = some (JVal.str "v1.3") := rfl
example :
    checkForUpdates (some (JVal.obj [("tag_name", JVal.str "v1.2")]))
      (some (JVal.str "v1.2")) = none := rfl

/-- C8: `check_for_updates` reports the fetched version unconditionally
when no (truthy) `last_known_version` is persisted; with a persisted
version it reports the fetched tag exactly when the parsed tuples compare
strictly newer; every exception raised in the body is caught and the call
returns `None`, as does a failed fetch. -/
theorem check_for_updates_spec :
    (∀ (o : List (String × JVal)) (lastKnown : Option JVal),
      pyTruthy (JVal.obj o) = true → pyTruthyOpt lastKnown = false →
        checkForUpdates (some (JVal.obj o)) lastKnown =
          some ((objGet o "tag_name").getD (JVal.str "0.0.0"))) ∧
    (∀ (o : List (String × JVal)) (ls cs : String),
      pyTruthy (JVal.obj o) = true →
      objGet o "tag_name" = some (JVal.str ls) → cs ≠ "" →
        checkForUpdates (some (JVal.obj o)) (some (JVal.str cs)) =
          (if pyTupleGt (parse_version ls) (parse_version cs) then
            some (JVal.str ls)
          else none)) ∧
    (∀ fetched lastKnown : Option JVal,
      cfuBody fetched lastKnown = Except.error () →
        checkForUpdates fetched lastKnown = none) ∧
    (∀ lastKnown : Option JVal, checkForUpdates none lastKnown = none) := by
  refine ⟨?_, ?_, ?_, fun _ => rfl⟩
  · intro o lastKnown h1 h2
    simp [checkForUpdates, cfuBody, h1, h2]
  · intro o ls cs h1 h2 h3
    have hcs : pyTruthyOpt (some (JVal.str cs)) = true := by
      simp [pyTruthyOpt, pyTruthy, h3]
    by_cases hgt : pyTupleGt (parse_version ls) (parse_version cs) = true
    · simp [checkForUpdates, cfuBody, h1, h2, hcs, hgt]
    · simp [checkForUpdates, cfuBody, h1, h2, hcs, hgt]
  · intro fetched lastKnown h
    simp [checkForUpdates, h]

/-- Witness for C8: a successful fetch with no persisted baseline reports
the tag; with baseline `"v2"` the strictly newer `"v2.0.1"` is reported; a
non-dict fetched document (whose `.get` raises in the source) yields
`None`, as does a failed fetch. -/
theorem check_for_updates_spec_witness :
    checkForUpdates (some (JVal.obj [("tag_name", JVal.str "v1.2")])) none =
      some (JVal.str "v1.2") ∧
    checkForUpdates (some (JVal.obj [("tag_name", JVal.str "v2.0.1")]))
      (some (JVal.str "v2")) = some (JVal.str "v2.0.1") ∧
    checkForUpdates (some (JVal.str "oops")) none = none ∧
    checkForUpdates none none = none :=
  ⟨check_for_updates_spec.1 [("tag_name", JVal.str "v1.2")] none rfl rfl,
    check_for_updates_spec.2.1 [("tag_name", JVal.str "v2.0.1")] "v2.0.1" "v2"
      rfl rfl (by decide),
    check_for_updates_spec.2.2.1 (some (JVal.str "oops")) none rfl,
    check_for_updates_spec.2.2.2 none⟩

/-! ## Download and transactional update (binary_manager.py lines 317-528)

The Linux path of `_download_binary` and `update_binary`, over a map from
binaries-directory-relative file names to byte contents (`List Nat`).
External effects are oracles carried in `DlEnv`: whether the release fetch
returned a truthy document, whether the platform mapping and asset lookup
succeeded, whether `urlretrieve` (or the cancellation hook) raised, the
downloaded bytes, the asset digest after the `sha256:` prefix strip (`""`
when the asset carries none), the SHA-256 hex oracle, the behaviour of
`tarfile.extractall` on the downloaded bytes, and the variant probe.
`tarfile.extractall` on a corrupt archive writes the members preceding the
corrupt one and then raises — the `aborted` case records the members
already written.  Not modelled, because no claim concerns them: the
progress dialog, execute-permission bits (the map holds contents only),
and the `last_known_version` config write at line 428. -/

/-- Python `str.lower()`, over the character list so that it reduces. -/
def pyLower (s : String) : String :=
  String.mk (s.toList.map Char.toLower)

/-- `_verify_checksum` (lines 440-451): streaming SHA-256 of the file,
then a case-insensitive hex comparison. -/
def verifyChecksum (sha256hex : List Nat → String) (contents : List Nat)
    (expected : String) : Bool :=
  pyLower (sha256hex contents) == pyLower expected

/-- The temporary download path `f"{binary_name}.tmp"` for the Linux
archive. -/
def tarTmpName : String := "langkit-app-linux.tar.xz.tmp"

/-- Outcome of `tarfile.extractall` on the downloaded bytes: all entries
written, or a prefix of them written before an exception. -/
inductive ExtractRes where
  | done : List (String × List Nat) → ExtractRes
  | aborted : List (String × List Nat) → ExtractRes

/-- The effect oracles of one `_download_binary` run. -/
structure DlEnv where
  fetchedOk : Bool
  platformOk : Bool
  assetFound : Bool
  dlRaised : Bool
  bytes : List Nat
  digest : String
  sha256hex : List Nat → String
  extract : List Nat → ExtractRes
  probeRun : String → Bool

/-- Write a list of extracted archive members into the directory map, in
order (later members overwrite earlier ones of the same name). -/
def applyEntries (fs : String → Option (List Nat))
    (es : List (String × List Nat)) : String → Option (List Nat) :=
  es.foldl (fun f e => fsSet e.1 e.2 f) fs

/-- The Linux path of `_download_binary` (lines 317-438): fetch the release
info, resolve the platform asset name, locate the asset, download to the
temporary path, verify the digest when one is supplied (mismatch unlinks
the temp file and returns `None` before any extraction), extract the
archive, unlink the temp file, and select the working variant by probe with
a fall-back to the first candidate present.  Any exception lands in the
handler at lines 433-438, which unlinks the temp file if present and
returns `None`. -/
def downloadBinaryLinux (env : DlEnv) (fs : String → Option (List Nat)) :
    Option String × (String → Option (List Nat)) :=
  if !env.fetchedOk then (none, fs)
  else if !env.platformOk then (none, fs)
  else if !env.assetFound then (none, fs)
  else if env.dlRaised then (none, fsDel tarTmpName fs)
  else
    let fs1 := fsSet tarTmpName env.bytes fs
    if env.digest ≠ "" ∧
        verifyChecksum env.sha256hex env.bytes env.digest = false then
      (none, fsDel tarTmpName fs1)
    else
      match env.extract env.bytes with
      | .aborted written =>
        (none, fsDel tarTmpName (applyEntries fs1 written))
      | .done entries =>
        let fs2 := fsDel tarTmpName (applyEntries fs1 entries)
        let final :=
          match detectWorkingLinux Sys.linux none env.probeRun
              (fun v => (fs2 v).isSome) with
          | some w => some w
          | none => variantNames.find? (fun v => (fs2 v).isSome)
        (final, fs2)

/-- Backup file name for a variant (lines 472 and 485). -/
def backupName (v : String) : String := v ++ ".backup"

/-- One iteration of the Linux backup loop of `update_binary` (lines
467-478): when the variant is present, overwrite any stale backup with a
copy of it, record it, and remove the current file. -/
def backupStep (acc : List String × (String → Option (List Nat)))
    (v : String) : List String × (String → Option (List Nat)) :=
  match acc.2 v with
  | some content =>
    (acc.1 ++ [v], fsDel v (fsSet (backupName v) content acc.2))
  | none => acc

/-- One iteration of the restore loop of `update_binary` (lines 516-528):
when the recorded backup still exists, copy it back over the original name
and delete it. -/
def restoreStep (f : String → Option (List Nat)) (v : String) :
    String → Option (List Nat) :=
  match f (backupName v) with
  | some c => fsDel (backupName v) (fsSet v c f)
  | none => f

/-- The Linux path of `update_binary` (lines 453-528): no-op `False` when
`check_for_updates` reports nothing (`updAvail` is the truthiness of its
result); otherwise back up and remove every present variant, run
`_download_binary`, and on a truthy result delete the recorded backups,
else restore every recorded backup over the current state and delete it. -/
def updateBinaryLinux (env : DlEnv) (updAvail : Bool)
    (fs : String → Option (List Nat)) :
    Bool × (String → Option (List Nat)) :=
  match updAvail with
  | false => (false, fs)
  | true =>
    let bk := variantNames.foldl backupStep ([], fs)
    let dl := downloadBinaryLinux env bk.2
    if dl.1.isSome then
      (true, bk.1.foldl (fun f v => fsDel (backupName v) f) dl.2)
    else
      (false, bk.1.foldl restoreStep dl.2)

/-- C3: whenever the release asset supplies a digest and the SHA-256 of
the downloaded bytes differs from it case-insensitively,
`_download_binary` returns `None`, the temporary file is deleted, and no
other file changes: extraction never ran, so no executable artifact
appears on disk from that download. -/
theorem checksum_mismatch_no_install (env : DlEnv)
    (fs : String → Option (List Nat))
    (h1 : env.fetchedOk = true) (h2 : env.platformOk = true)
    (h3 : env.assetFound = true) (h4 : env.dlRaised = false)
    (h5 : env.digest ≠ "")
    (h6 : verifyChecksum env.sha256hex env.bytes env.digest = false) :
    (downloadBinaryLinux env fs).1 = none ∧
    (downloadBinaryLinux env fs).2 tarTmpName = none ∧
    (∀ n, n ≠ tarTmpName → (downloadBinaryLinux env fs).2 n = fs n) := by
  have hd : downloadBinaryLinux env fs =
      (none, fsDel tarTmpName (fsSet tarTmpName env.bytes fs)) := by
    simp [downloadBinaryLinux, h1, h2, h3, h4, h5, h6]
  rw [hd]
  refine ⟨rfl, by simp [fsDel], fun n hn => ?_⟩
  simp [fsDel, fsSet, hn]

/-- Witness for C3: a download whose hash oracle reports `"aa"` against
expected digest `"bb"` over an initially empty binaries directory. -/
theorem checksum_mismatch_no_install_witness :
    ("bb" : String) ≠ "" ∧
    verifyChecksum (fun _ => "aa") [1, 2] "bb" = false ∧
    (downloadBinaryLinux
      { fetchedOk := true, platformOk := true, assetFound := true
        dlRaised := false, bytes := [1, 2], digest := "bb"
        sha256hex := fun _ => "aa", extract := fun _ => ExtractRes.done []
        probeRun := fun _ => false } (fun _ => none)).1 = none ∧
    (downloadBinaryLinux
      { fetchedOk := true, platformOk := true, assetFound := true
        dlRaised := false, bytes := [1, 2], digest := "bb"
        sha256hex := fun _ => "aa", extract := fun _ => ExtractRes.done []
        probeRun := fun _ => false } (fun _ => none)).2 tarTmpName = none ∧
    (∀ n, n ≠ tarTmpName →
      (downloadBinaryLinux
        { fetchedOk := true, platformOk := true, assetFound := true
          dlRaised := false, bytes := [1, 2], digest := "bb"
          sha256hex := fun _ => "aa", extract := fun _ => ExtractRes.done []
          probeRun := fun _ => false } (fun _ => none)).2 n =
        (fun _ => (none : Option (List Nat))) n) :=
  ⟨by decide, by decide,
    (checksum_mismatch_no_install _ _ rfl rfl rfl rfl (by decide)
      (by decide)).1,
    (checksum_mismatch_no_install _ _ rfl rfl rfl rfl (by decide)
      (by decide)).2.1,
    (checksum_mismatch_no_install _ _ rfl rfl rfl rfl (by decide)
      (by decide)).2.2⟩

theorem applyEntries_not_mem (es : List (String × List Nat))
    (base : String → Option (List Nat)) (v : String)
    (h : v ∉ es.map Prod.fst) : applyEntries base es v = base v := by
  induction es generalizing base with
  | nil => rfl
  | cons e t ih =>
    simp only [List.map_cons, List.mem_cons] at h
    push_neg at h
    have := ih (fsSet e.1 e.2 base) h.2
    rw [applyEntries] at *
    simp only [List.foldl_cons] at *
    rw [this]
    simp [fsSet, h.1]

theorem applyEntries_mem_congr (es : List (String × List Nat))
    (base base2 : String → Option (List Nat)) (v : String)
    (h : v ∈ es.map Prod.fst) :
    applyEntries base es v = applyEntries base2 es v := by
  induction es generalizing base base2 with
  | nil => cases h
  | cons e t ih =>
    by_cases hm : v ∈ t.map Prod.fst
    · rw [applyEntries] at *
      simp only [List.foldl_cons] at *
      exact ih (fsSet e.1 e.2 base) (fsSet e.1 e.2 base2) hm
    · simp only [List.map_cons, List.mem_cons] at h
      rcases h with h | h
      · rw [applyEntries, applyEntries]
        simp only [List.foldl_cons]
        rw [show List.foldl (fun f e => fsSet e.1 e.2 f) (fsSet e.1 e.2 base) t = applyEntries (fsSet e.1 e.2 base) t from rfl]
        rw [show List.foldl (fun f e => fsSet e.1 e.2 f) (fsSet e.1 e.2 base2) t = applyEntries (fsSet e.1 e.2 base2) t from rfl]
        rw [applyEntries_not_mem t _ v hm, applyEntries_not_mem t _ v hm]
        simp [fsSet, h]
      · exact absurd h hm

theorem applyEntries_mem_isSome (es : List (String × List Nat))
    (base : String → Option (List Nat)) (v : String)
    (h : v ∈ es.map Prod.fst) :
    (applyEntries base es v).isSome = true := by
  induction es generalizing base with
  | nil => cases h
  | cons e t ih =>
    by_cases hm : v ∈ t.map Prod.fst
    · rw [applyEntries]
      simp only [List.foldl_cons]
      exact ih (fsSet e.1 e.2 base) hm
    · simp only [List.map_cons, List.mem_cons] at h
      rcases h with h | h
      · rw [applyEntries]
        simp only [List.foldl_cons]
        rw [show List.foldl (fun f e => fsSet e.1 e.2 f) (fsSet e.1 e.2 base) t = applyEntries (fsSet e.1 e.2 base) t from rfl]
        rw [applyEntries_not_mem t _ v hm]
        simp [fsSet, h]
      · exact absurd h hm

theorem backup_fold_char (fs : String → Option (List Nat)) :
    (variantNames.foldl backupStep ([], fs)).1 =
      ((match fs "langkit" with | some _ => ["langkit"] | none => []) ++
        (match fs "langkit-webkit2_41" with
          | some _ => ["langkit-webkit2_41"] | none => [])) ∧
    ∀ n, (variantNames.foldl backupStep ([], fs)).2 n =
      (if n = "langkit" ∨ n = "langkit-webkit2_41" then none
      else if n = backupName "langkit" then
        (match fs "langkit" with | some c => some c | none => fs n)
      else if n = backupName "langkit-webkit2_41" then
        (match fs "langkit-webkit2_41" with | some c => some c | none => fs n)
      else fs n) := by
  rcases hfa : fs "langkit" with _ | ca <;>
    rcases hfb : fs "langkit-webkit2_41" with _ | cb <;>
      (refine ⟨?_, fun n => ?_⟩
       · simp [variantNames, backupStep, hfa, hfb, fsDel, fsSet, backupName]
       · simp only [variantNames, List.foldl_cons, List.foldl_nil]
         simp [backupStep, hfa, hfb, fsDel, fsSet, backupName]
         split_ifs <;>
           first
             | simp_all
             | (rename_i h
                rcases h with rfl | rfl <;> simp_all))

theorem download_fail_fs (env : DlEnv) (fs : String → Option (List Nat))
    (hfail : env.fetchedOk = false ∨ env.platformOk = false ∨
      env.assetFound = false ∨ env.dlRaised = true ∨
      (env.digest ≠ "" ∧
        verifyChecksum env.sha256hex env.bytes env.digest = false)) :
    (downloadBinaryLinux env fs).1 = none ∧
    (∀ n, n ≠ tarTmpName → (downloadBinaryLinux env fs).2 n = fs n) ∧
    ((downloadBinaryLinux env fs).2 tarTmpName = none ∨
      (downloadBinaryLinux env fs).2 tarTmpName = fs tarTmpName) := by
  cases hfe : env.fetchedOk
  · simp [downloadBinaryLinux, hfe]
  · cases hpl : env.platformOk
    · simp [downloadBinaryLinux, hfe, hpl]
    · cases had : env.assetFound
      · simp [downloadBinaryLinux, hfe, hpl, had]
      · cases hdr : env.dlRaised
        · have hck : env.digest ≠ "" ∧
              verifyChecksum env.sha256hex env.bytes env.digest = false := by
            rcases hfail with h | h | h | h | h
            · rw [hfe] at h; cases h
            · rw [hpl] at h; cases h
            · rw [had] at h; cases h
            · rw [hdr] at h; cases h
            · exact h
          refine ⟨?_, fun n hn => ?_, Or.inl ?_⟩
          · simp [downloadBinaryLinux, hfe, hpl, had, hdr, hck]
          · simp [downloadBinaryLinux, hfe, hpl, had, hdr, hck, fsDel,
              fsSet, hn]
          · simp [downloadBinaryLinux, hfe, hpl, had, hdr, hck, fsDel, fsSet]
        · refine ⟨?_, fun n hn => ?_, Or.inl ?_⟩
          · simp [downloadBinaryLinux, hfe, hpl, had, hdr]
          · simp [downloadBinaryLinux, hfe, hpl, had, hdr, fsDel, hn]
          · simp [downloadBinaryLinux, hfe, hpl, had, hdr, fsDel]

theorem update_rollback_pre_extraction (env : DlEnv)
    (fs : String → Option (List Nat))
    (hfail : env.fetchedOk = false ∨ env.platformOk = false ∨
      env.assetFound = false ∨ env.dlRaised = true ∨
      (env.digest ≠ "" ∧
        verifyChecksum env.sha256hex env.bytes env.digest = false))
    (htmp : fs tarTmpName = none)
    (hba : fs (backupName "langkit") = none)
    (hbb : fs (backupName "langkit-webkit2_41") = none) :
    (updateBinaryLinux env true fs).1 = false ∧
    ∀ n, (updateBinaryLinux env true fs).2 n = fs n := by
  obtain ⟨hl, hfsk⟩ := backup_fold_char fs
  set bk := variantNames.foldl backupStep ([], fs) with hbk
  obtain ⟨hd1, hd2, hd3⟩ := download_fail_fs env bk.2 hfail
  have hbtmp : bk.2 tarTmpName = fs tarTmpName := by
    rw [hfsk tarTmpName]
    simp [backupName, tarTmpName]
  have hdtmp : (downloadBinaryLinux env bk.2).2 tarTmpName = none := by
    rcases hd3 with h | h
    · exact h
    · rw [h, hbtmp, htmp]
  have hupd : updateBinaryLinux env true fs =
      (false, bk.1.foldl restoreStep (downloadBinaryLinux env bk.2).2) := by
    rw [updateBinaryLinux]
    rw [← hbk]
    rcases hdl : (downloadBinaryLinux env bk.2) with ⟨r, f2⟩
    rw [hdl] at hd1
    simp only at hd1
    subst hd1
    simp
  rw [hupd]
  refine ⟨rfl, fun n => ?_⟩
  -- values of the download result at the four artifact-related names
  have hdba : (downloadBinaryLinux env bk.2).2 (backupName "langkit") =
      (match fs "langkit" with
        | some c => some c | none => fs (backupName "langkit")) := by
    rw [hd2 _ (by simp [backupName, tarTmpName]), hfsk]
    simp [backupName]
  have hdbb : (downloadBinaryLinux env bk.2).2
      (backupName "langkit-webkit2_41") =
      (match fs "langkit-webkit2_41" with
        | some c => some c | none => fs (backupName "langkit-webkit2_41")) := by
    rw [hd2 _ (by simp [backupName, tarTmpName]), hfsk]
    simp [backupName]
  rcases hfa : fs "langkit" with _ | ca <;>
    rcases hfb : fs "langkit-webkit2_41" with _ | cb <;>
      rw [hfa] at hl hdba <;> rw [hfb] at hl hdbb <;>
        simp only [List.cons_append, List.nil_append, List.append_nil] at hl <;>
          rw [hl] <;>
          simp only [List.foldl_cons, List.foldl_nil]
  · -- nothing was backed up: the state is the download result unchanged
    by_cases hn : n = tarTmpName
    · rw [hn, hdtmp, htmp]
    · rw [hd2 n hn, hfsk]
      split_ifs with h1 h2 h3
      · rcases h1 with rfl | rfl
        · rw [hfa]
        · rw [hfb]
      · rw [h2, hba, hfa]
      · rw [h3, hbb, hfb]
      · rfl
  · -- only langkit-webkit2_41 was backed up and is restored
    rw [restoreStep, hdbb]
    simp only [fsDel, fsSet]
    by_cases h1 : n = backupName "langkit-webkit2_41"
    · rw [if_pos h1, h1, hbb]
    · rw [if_neg h1]
      by_cases h2 : n = "langkit-webkit2_41"
      · rw [if_pos h2, h2, hfb]
      · rw [if_neg h2]
        by_cases hn : n = tarTmpName
        · rw [hn, hdtmp, htmp]
        · rw [hd2 n hn, hfsk]
          split_ifs with h3 h4
          · rcases h3 with rfl | rfl
            · rw [hfa]
            · exact absurd rfl h2
          · rw [h4, hba, hfa]
          · rfl
  · -- only langkit was backed up and is restored
    rw [restoreStep, hdba]
    simp only [fsDel, fsSet]
    by_cases h1 : n = backupName "langkit"
    · rw [if_pos h1, h1, hba]
    · rw [if_neg h1]
      by_cases h2 : n = "langkit"
      · rw [if_pos h2, h2, hfa]
      · rw [if_neg h2]
        by_cases hn : n = tarTmpName
        · rw [hn, hdtmp, htmp]
        · rw [hd2 n hn, hfsk]
          split_ifs with h3 h4
          · rcases h3 with rfl | rfl
            · exact absurd rfl h2
            · rw [hfb]
          · rw [h4, hbb, hfb]
          · rfl
  · -- both variants were backed up and both are restored
    have hin : restoreStep (downloadBinaryLinux env bk.2).2 "langkit" =
        fsDel (backupName "langkit")
          (fsSet "langkit" ca (downloadBinaryLinux env bk.2).2) := by
      rw [restoreStep, hdba]
    rw [hin]
    have hstep1 :
        (fsDel (backupName "langkit") (fsSet "langkit" ca
          (downloadBinaryLinux env bk.2).2)) (backupName "langkit-webkit2_41") =
          some cb := by
      simp only [fsDel, fsSet]
      rw [if_neg (by simp [backupName]), if_neg (by simp [backupName])]
      rw [hdbb]
    rw [restoreStep, hstep1]
    simp only [fsDel, fsSet]
    by_cases h1 : n = backupName "langkit-webkit2_41"
    · rw [if_pos h1, h1, hbb]
    · rw [if_neg h1]
      by_cases h2 : n = "langkit-webkit2_41"
      · rw [if_pos h2, h2, hfb]
      · rw [if_neg h2]
        by_cases h3 : n = backupName "langkit"
        · rw [if_pos h3, h3, hba]
        · rw [if_neg h3]
          by_cases h4 : n = "langkit"
          · rw [if_pos h4, h4, hfa]
          · rw [if_neg h4]
            by_cases hn : n = tarTmpName
            · rw [hn, hdtmp, htmp]
            · rw [hd2 n hn, hfsk]
              split_ifs with h5
              · rcases h5 with rfl | rfl
                · exact absurd rfl h4
                · exact absurd rfl h2
              · rfl

theorem foldl_delBackup_not_mem (l : List String)
    (base : String → Option (List Nat)) (n : String)
    (h : ∀ w ∈ l, n ≠ backupName w) :
    (l.foldl (fun f v => fsDel (backupName v) f) base) n = base n := by
  induction l generalizing base with
  | nil => rfl
  | cons v t ih =>
    simp only [List.foldl_cons]
    rw [ih (fsDel (backupName v) base) (fun w hw => h w (List.mem_cons_of_mem v hw))]
    simp [fsDel, h v (List.mem_cons_self v t)]

theorem foldl_delBackup_or (l : List String)
    (base : String → Option (List Nat)) (n : String) :
    (l.foldl (fun f v => fsDel (backupName v) f) base) n = base n ∨
      (l.foldl (fun f v => fsDel (backupName v) f) base) n = none := by
  induction l generalizing base with
  | nil => exact Or.inl rfl
  | cons v t ih =>
    simp only [List.foldl_cons]
    rcases ih (fsDel (backupName v) base) with h | h
    · rw [h]
      simp only [fsDel]
      split_ifs
      · exact Or.inr rfl
      · exact Or.inl rfl
    · exact Or.inr h

theorem foldl_delBackup_mem (l : List String)
    (base : String → Option (List Nat)) (w : String) (h : w ∈ l) :
    (l.foldl (fun f v => fsDel (backupName v) f) base) (backupName w) = none := by
  induction l generalizing base with
  | nil => cases h
  | cons v t ih =>
    simp only [List.foldl_cons]
    rcases List.mem_cons.mp h with rfl | hmem
    · rcases foldl_delBackup_or t (fsDel (backupName w) base) (backupName w)
          with h2 | h2
      · rw [h2]
        simp [fsDel]
      · exact h2
    · exact ih (fsDel (backupName v) base) hmem

theorem update_commit_success (env : DlEnv) (fs : String → Option (List Nat))
    (entries : List (String × List Nat))
    (h1 : env.fetchedOk = true) (h2 : env.platformOk = true)
    (h3 : env.assetFound = true) (h4 : env.dlRaised = false)
    (h5 : env.digest = "" ∨
      verifyChecksum env.sha256hex env.bytes env.digest = true)
    (hex : env.extract env.bytes = ExtractRes.done entries)
    (hne : entries ≠ [])
    (hsub : ∀ p ∈ entries, p.1 = "langkit" ∨ p.1 = "langkit-webkit2_41")
    (hba : fs (backupName "langkit") = none)
    (hbb : fs (backupName "langkit-webkit2_41") = none) :
    (updateBinaryLinux env true fs).1 = true ∧
    (updateBinaryLinux env true fs).2 "langkit" =
      applyEntries (fun _ => none) entries "langkit" ∧
    (updateBinaryLinux env true fs).2 "langkit-webkit2_41" =
      applyEntries (fun _ => none) entries "langkit-webkit2_41" ∧
    (updateBinaryLinux env true fs).2 (backupName "langkit") = none ∧
    (updateBinaryLinux env true fs).2 (backupName "langkit-webkit2_41") = none ∧
    (updateBinaryLinux env true fs).2 tarTmpName = none := by
  obtain ⟨hl, hfsk⟩ := backup_fold_char fs
  set bk := variantNames.foldl backupStep ([], fs) with hbk
  have hvc : ¬(env.digest ≠ "" ∧
      verifyChecksum env.sha256hex env.bytes env.digest = false) := by
    rcases h5 with h | h <;> simp [h]
  have hdl2 : (downloadBinaryLinux env bk.2).2 =
      fsDel tarTmpName (applyEntries (fsSet tarTmpName env.bytes bk.2) entries) := by
    simp only [downloadBinaryLinux, h1, h2, h3, h4, Bool.not_true,
      Bool.not_false, Bool.false_eq_true, if_false, if_true]
    rw [if_neg hvc, hex]
  have hdl1 : (downloadBinaryLinux env bk.2).1 =
      (match detectWorkingLinux Sys.linux none env.probeRun
          (fun v => ((fsDel tarTmpName (applyEntries
            (fsSet tarTmpName env.bytes bk.2) entries)) v).isSome) with
        | some w => some w
        | none => variantNames.find? (fun v => ((fsDel tarTmpName (applyEntries
            (fsSet tarTmpName env.bytes bk.2) entries)) v).isSome)) := by
    simp only [downloadBinaryLinux, h1, h2, h3, h4, Bool.not_true,
      Bool.not_false, Bool.false_eq_true, if_false, if_true]
    rw [if_neg hvc, hex]
  -- the head entry is a variant that the extraction materializes
  obtain ⟨e, t, hent⟩ : ∃ e t, entries = e :: t := by
    rcases entries with _ | ⟨e, t⟩
    · exact absurd rfl hne
    · exact ⟨e, t, rfl⟩
  have hehead : e ∈ entries := by rw [hent]; exact List.mem_cons_self e t
  have hename : e.1 ∈ entries.map Prod.fst := List.mem_map_of_mem Prod.fst hehead
  have hev : e.1 = "langkit" ∨ e.1 = "langkit-webkit2_41" := hsub e hehead
  have hetmp : e.1 ≠ tarTmpName := by
    rcases hev with h | h <;> rw [h] <;> simp [tarTmpName]
  have hfs2e : ((fsDel tarTmpName (applyEntries
      (fsSet tarTmpName env.bytes bk.2) entries)) e.1).isSome = true := by
    simp only [fsDel, if_neg hetmp]
    exact applyEntries_mem_isSome entries _ e.1 hename
  have hisSome : (downloadBinaryLinux env bk.2).1.isSome = true := by
    rw [hdl1]
    rcases hdet : detectWorkingLinux Sys.linux none env.probeRun
        (fun v => ((fsDel tarTmpName (applyEntries
          (fsSet tarTmpName env.bytes bk.2) entries)) v).isSome) with _ | w
    · show (variantNames.find? (fun v => ((fsDel tarTmpName (applyEntries
        (fsSet tarTmpName env.bytes bk.2) entries)) v).isSome)).isSome = true
      rw [List.find?_isSome]
      refine ⟨e.1, ?_, hfs2e⟩
      rcases hev with h | h <;> rw [h] <;> simp [variantNames]
    · rfl
  have hupd : updateBinaryLinux env true fs =
      (true, bk.1.foldl (fun f v => fsDel (backupName v) f)
        (downloadBinaryLinux env bk.2).2) := by
    rw [updateBinaryLinux, ← hbk]
    simp only [hisSome, if_true]
  have hsubbk : ∀ w ∈ bk.1, w = "langkit" ∨ w = "langkit-webkit2_41" := by
    rw [hl]
    intro w hw
    rcases hfa : fs "langkit" with _ | ca <;>
      rcases hfb : fs "langkit-webkit2_41" with _ | cb <;>
        rw [hfa, hfb] at hw <;> simp_all
  -- the backup pass leaves both variant names absent
  have hbkv : ∀ v, (v = "langkit" ∨ v = "langkit-webkit2_41") →
      bk.2 v = none := by
    intro v hv
    rw [hfsk]
    rw [if_pos hv]
  have hu1 : (updateBinaryLinux env true fs).1 = true := by rw [hupd]
  have hu2 : (updateBinaryLinux env true fs).2 =
      bk.1.foldl (fun f v => fsDel (backupName v) f)
        (downloadBinaryLinux env bk.2).2 := by rw [hupd]
  refine ⟨hu1, ?_, ?_, ?_, ?_, ?_⟩ <;> rw [hu2]
  · rw [foldl_delBackup_not_mem _ _ _ (fun w hw => by
      rcases hsubbk w hw with rfl | rfl <;> simp [backupName])]
    rw [hdl2]
    simp only [fsDel, if_neg (show ("langkit" : String) ≠ tarTmpName by
      simp [tarTmpName])]
    by_cases hm : "langkit" ∈ entries.map Prod.fst
    · exact applyEntries_mem_congr entries _ _ _ hm
    · rw [applyEntries_not_mem entries _ _ hm, applyEntries_not_mem entries _ _ hm]
      rw [fsSet]
      rw [if_neg (show ("langkit" : String) ≠ tarTmpName by simp [tarTmpName])]
      exact hbkv "langkit" (Or.inl rfl)
  · rw [foldl_delBackup_not_mem _ _ _ (fun w hw => by
      rcases hsubbk w hw with rfl | rfl <;> simp [backupName])]
    rw [hdl2]
    simp only [fsDel, if_neg (show ("langkit-webkit2_41" : String) ≠ tarTmpName by
      simp [tarTmpName])]
    by_cases hm : "langkit-webkit2_41" ∈ entries.map Prod.fst
    · exact applyEntries_mem_congr entries _ _ _ hm
    · rw [applyEntries_not_mem entries _ _ hm, applyEntries_not_mem entries _ _ hm]
      rw [fsSet]
      rw [if_neg (show ("langkit-webkit2_41" : String) ≠ tarTmpName by
        simp [tarTmpName])]
      exact hbkv "langkit-webkit2_41" (Or.inr rfl)
  · rcases hfa : fs "langkit" with _ | ca
    · rcases foldl_delBackup_or bk.1 (downloadBinaryLinux env bk.2).2
          (backupName "langkit") with h | h
      · rw [h, hdl2]
        simp only [fsDel, if_neg (show backupName "langkit" ≠ tarTmpName by
          simp [backupName, tarTmpName])]
        rw [applyEntries_not_mem entries _ _ (fun hm => by
          rcases List.mem_map.mp hm with ⟨p, hp, hpe⟩
          rcases hsub p hp with h | h <;> rw [h] at hpe <;>
            simp [backupName] at hpe)]
        rw [fsSet, if_neg (show backupName "langkit" ≠ tarTmpName by
          simp [backupName, tarTmpName])]
        rw [hfsk]
        rw [if_neg (by simp [backupName]), if_pos rfl, hfa]
        exact hba
      · exact h
    · refine foldl_delBackup_mem bk.1 _ "langkit" ?_
      rw [hl, hfa]
      rcases hfb : fs "langkit-webkit2_41" with _ | cb <;> simp
  · rcases hfb : fs "langkit-webkit2_41" with _ | cb
    · rcases foldl_delBackup_or bk.1 (downloadBinaryLinux env bk.2).2
          (backupName "langkit-webkit2_41") with h | h
      · rw [h, hdl2]
        simp only [fsDel,
          if_neg (show backupName "langkit-webkit2_41" ≠ tarTmpName by
            simp [backupName, tarTmpName])]
        rw [applyEntries_not_mem entries _ _ (fun hm => by
          rcases List.mem_map.mp hm with ⟨p, hp, hpe⟩
          rcases hsub p hp with h | h <;> rw [h] at hpe <;>
            simp [backupName] at hpe)]
        rw [fsSet, if_neg (show backupName "langkit-webkit2_41" ≠ tarTmpName by
          simp [backupName, tarTmpName])]
        rw [hfsk]
        rw [if_neg (by simp [backupName]), if_neg (by simp [backupName]),
          if_pos rfl, hfb]
        exact hbb
      · exact h
    · refine foldl_delBackup_mem bk.1 _ "langkit-webkit2_41" ?_
      rw [hl, hfb]
      rcases hfa : fs "langkit" with _ | ca <;> simp
  · rw [foldl_delBackup_not_mem _ _ _ (fun w hw => by
      rcases hsubbk w hw with rfl | rfl <;> simp [backupName, tarTmpName])]
    rw [hdl2]
    simp [fsDel]

/-- Initial on-disk state for the C1 scenarios: only the old main binary
`langkit`, with contents `[1]`, is present. -/
def exC1Fs : String → Option (List Nat) :=
  fun n => if n = "langkit" then some [1] else none

/-- C1 counterexample environment: the update check succeeded and the new
release archive holds the two new binaries `langkit ↦ [9]` and
`langkit-webkit2_41 ↦ [7]`, with `langkit-webkit2_41` stored first; the
archive's `langkit` member is corrupt, so `tarfile.extractall` writes
`langkit-webkit2_41` and then raises, landing in the exception handler of
`_download_binary`, which reports failure.  No digest is supplied, so
checksum verification is skipped. -/
def exC1AbortEnv : DlEnv where
  fetchedOk := true
  platformOk := true
  assetFound := true
  dlRaised := false
  bytes := [0]
  digest := ""
  sha256hex := fun _ => ""
  extract := fun _ => ExtractRes.aborted [("langkit-webkit2_41", [7])]
  probeRun := fun _ => true

/-- C1 counterexample: `update_binary` is not all-or-nothing.  Starting
from a state holding only the old `langkit` (contents `[1]`), an update
whose download fails midway through extraction leaves the restored old
`langkit` next to the freshly extracted new `langkit-webkit2_41`
(contents `[7]`) — a mixture of old and new.  Neither disjunct of the
claim holds afterwards: the new version's artifact is not present (its
`langkit` would be `[9]`), and the on-disk state is not byte-identical to
the pre-update state (`langkit-webkit2_41` did not exist before).  Backups
are all gone, as it happens, but the mixture refutes the claim. -/
theorem update_binary_counterexample :
    (updateBinaryLinux exC1AbortEnv true exC1Fs).1 = false ∧
    (updateBinaryLinux exC1AbortEnv true exC1Fs).2 "langkit" = some [1] ∧
    (updateBinaryLinux exC1AbortEnv true exC1Fs).2 "langkit-webkit2_41" =
      some [7] ∧
    exC1Fs "langkit-webkit2_41" = none ∧
    ¬ ((((updateBinaryLinux exC1AbortEnv true exC1Fs).2 "langkit" = some [9] ∧
          (updateBinaryLinux exC1AbortEnv true exC1Fs).2 "langkit-webkit2_41" =
            some [7]) ∧
         (updateBinaryLinux exC1AbortEnv true exC1Fs).2
            (backupName "langkit") = none ∧
         (updateBinaryLinux exC1AbortEnv true exC1Fs).2
            (backupName "langkit-webkit2_41") = none) ∨
        (((updateBinaryLinux exC1AbortEnv true exC1Fs).2 "langkit" =
            exC1Fs "langkit" ∧
          (updateBinaryLinux exC1AbortEnv true exC1Fs).2 "langkit-webkit2_41" =
            exC1Fs "langkit-webkit2_41") ∧
         (updateBinaryLinux exC1AbortEnv true exC1Fs).2
            (backupName "langkit") = none ∧
         (updateBinaryLinux exC1AbortEnv true exC1Fs).2
            (backupName "langkit-webkit2_41") = none)) := by
  decide

/-- C1 amended: `update_binary` is transactional for every run in which
the download fails before extraction begins, and for every run in which
extraction completes.  Over an initial state with no leftover backup or
temp files: (1) with no newer version reported it is a no-op returning
`False`; (2) when the download fails before extraction (failed fetch,
unsupported platform, missing asset, download exception or cancellation,
or checksum mismatch) it returns `False` and leaves every file byte-identical
to the pre-update state, with no backups remaining; (3) when the download
and extraction complete (the archive holding at least one known variant
and nothing else), it returns `True`, the extracted files are exactly the
new archive contents on the variant names, and no backup or temp file
remains.  A failure during extraction itself can instead leave newly
extracted files next to the restored old artifact, as the counterexample
shows. -/
theorem update_binary_amended :
    (∀ (env : DlEnv) (fs : String → Option (List Nat)),
      updateBinaryLinux env false fs = (false, fs)) ∧
    (∀ (env : DlEnv) (fs : String → Option (List Nat)),
      (env.fetchedOk = false ∨ env.platformOk = false ∨
        env.assetFound = false ∨ env.dlRaised = true ∨
        (env.digest ≠ "" ∧
          verifyChecksum env.sha256hex env.bytes env.digest = false)) →
      fs tarTmpName = none →
      fs (backupName "langkit") = none →
      fs (backupName "langkit-webkit2_41") = none →
        (updateBinaryLinux env true fs).1 = false ∧
        ∀ n, (updateBinaryLinux env true fs).2 n = fs n) ∧
    (∀ (env : DlEnv) (fs : String → Option (List Nat))
        (entries : List (String × List Nat)),
      env.fetchedOk = true → env.platformOk = true → env.assetFound = true →
      env.dlRaised = false →
      (env.digest = "" ∨
        verifyChecksum env.sha256hex env.bytes env.digest = true) →
      env.extract env.bytes = ExtractRes.done entries →
      entries ≠ [] →
      (∀ p ∈ entries, p.1 = "langkit" ∨ p.1 = "langkit-webkit2_41") →
      fs (backupName "langkit") = none →
      fs (backupName "langkit-webkit2_41") = none →
        (updateBinaryLinux env true fs).1 = true ∧
        (updateBinaryLinux env true fs).2 "langkit" =
          applyEntries (fun _ => none) entries "langkit" ∧
        (updateBinaryLinux env true fs).2 "langkit-webkit2_41" =
          applyEntries (fun _ => none) entries "langkit-webkit2_41" ∧
        (updateBinaryLinux env true fs).2 (backupName "langkit") = none ∧
        (updateBinaryLinux env true fs).2
          (backupName "langkit-webkit2_41") = none ∧
        (updateBinaryLinux env true fs).2 tarTmpName = none) :=
  ⟨fun _ _ => rfl, update_rollback_pre_extraction, update_commit_success⟩

/-- Environment for the rollback half of the C1 witness: the release fetch
fails, so the download fails before any extraction. -/
def exC1FailEnv : DlEnv where
  fetchedOk := false
  platformOk := true
  assetFound := true
  dlRaised := false
  bytes := [0]
  digest := ""
  sha256hex := fun _ => ""
  extract := fun _ => ExtractRes.done []
  probeRun := fun _ => true

/-- Environment for the commit half of the C1 witness: the download
succeeds and the archive extracts to a single new `langkit` binary with
contents `[9]`. -/
def exC1DoneEnv : DlEnv where
  fetchedOk := true
  platformOk := true
  assetFound := true
  dlRaised := false
  bytes := [0]
  digest := ""
  sha256hex := fun _ => ""
  extract := fun _ => ExtractRes.done [("langkit", [9])]
  probeRun := fun _ => true

/-- Witness for the amended C1 theorem: over the one-binary initial state,
a failed-fetch update rolls back byte-identically, and a completed update
installs the archive's new `langkit` with all backups and the temp file
gone. -/
theorem update_binary_amended_witness :
    ((updateBinaryLinux exC1FailEnv true exC1Fs).1 = false ∧
      ∀ n, (updateBinaryLinux exC1FailEnv true exC1Fs).2 n = exC1Fs n) ∧
    ((updateBinaryLinux exC1DoneEnv true exC1Fs).1 = true ∧
      (updateBinaryLinux exC1DoneEnv true exC1Fs).2 "langkit" =
        applyEntries (fun _ => none) [("langkit", [9])] "langkit" ∧
      (updateBinaryLinux exC1DoneEnv true exC1Fs).2 "langkit-webkit2_41" =
        applyEntries (fun _ => none) [("langkit", [9])] "langkit-webkit2_41" ∧
      (updateBinaryLinux exC1DoneEnv true exC1Fs).2
        (backupName "langkit") = none ∧
      (updateBinaryLinux exC1DoneEnv true exC1Fs).2
        (backupName "langkit-webkit2_41") = none ∧
      (updateBinaryLinux exC1DoneEnv true exC1Fs).2 tarTmpName = none) :=
  ⟨update_binary_amended.2.1 exC1FailEnv exC1Fs (Or.inl rfl) (by decide)
      (by decide) (by decide),
    update_binary_amended.2.2 exC1DoneEnv exC1Fs [("langkit", [9])] rfl rfl
      rfl rfl (Or.inl rfl) rfl (by decide) (by decide) (by decide)
      (by decide)⟩

end Langkit
